import Mathlib

/-!
# Basecamp notifier: presence predicate, state reconciliation, sessions and supervisor

A shallow embedding of `basecamp-notifier.go`.  Go strings are Lean `String`s, the
`*html.Node` tree built by `html.Parse` is an inductive tree whose `FirstChild` /
`NextSibling` chain is the list of children, and everything the program does to its
environment (standard output, the websocket, the error channel) is explicit state.
-/

namespace BasecampNotifier

/-! ## Markup trees (`golang.org/x/net/html`) -/

/-- The `html.NodeType` enumeration. -/
inductive NodeType
  | ErrorNode
  | TextNode
  | DocumentNode
  | ElementNode
  | CommentNode
  | DoctypeNode
  | RawNode
  deriving DecidableEq, Repr

/-- The `html.Attribute` record. -/
structure Attribute where
  Namespace : String
  Key : String
  Val : String
  deriving DecidableEq, Repr

/-- The `html.Node` record: `Type` (here `Kind`), `Data`, `Attr` and the children reached from
`FirstChild` by following `NextSibling`. -/
inductive Node
  | mk (Kind : NodeType) (Data : String) (Attr : List Attribute) (children : List Node)

namespace Node

/-- Field `Type` of a node (`Type` is reserved in Lean). -/
def Kind : Node → NodeType
  | mk t _ _ _ => t

/-- Field `Data` of a node. -/
def Data : Node → String
  | mk _ d _ _ => d

/-- Field `Attr` of a node. -/
def Attr : Node → List Attribute
  | mk _ _ a _ => a

/-- The nodes `FirstChild`, `FirstChild.NextSibling`, ... of a node. -/
def children : Node → List Node
  | mk _ _ _ cs => cs

end Node

/-- Go's `unicode.IsSpace`: the Latin-1 spaces and the `White_Space` table. -/
def IsSpace (r : Char) : Bool :=
  let n := r.toNat
  if n ≤ 0xFF then
    n == 0x09 || n == 0x0A || n == 0x0B || n == 0x0C || n == 0x0D || n == 0x20
      || n == 0x85 || n == 0xA0
  else
    n == 0x1680 || (0x2000 ≤ n && n ≤ 0x200A) || n == 0x2028 || n == 0x2029
      || n == 0x202F || n == 0x205F || n == 0x3000

/-- Go's `strings.TrimSpace`: the string without its leading and trailing white space. -/
def TrimSpace (s : String) : String :=
  ⟨((s.data.dropWhile IsSpace).reverse.dropWhile IsSpace).reverse⟩

/-- Go's `len` of a string: its number of bytes. -/
def len (s : String) : Nat :=
  s.utf8ByteSize

/-- The attribute loop of `walk`: some attribute of the node has key `data-readings`. -/
def hasReadingsAttr : List Attribute → Bool
  | [] => false
  | attr :: rest => if attr.Key = "data-readings" then true else hasReadingsAttr rest

mutual
/-- The closure `walk` of `checkForReadings`, with the captured variable `foundNode`
passed in and returned. -/
def walk (foundNode : Option Node) : Node → Option Node
  | Node.mk t d a cs =>
    if foundNode.isSome then foundNode
    else if t = NodeType.ElementNode ∧ hasReadingsAttr a = true then some (Node.mk t d a cs)
    else walkChildren foundNode cs
/-- The loop `for c := n.FirstChild; c != nil; c = c.NextSibling { walk(c) }`. -/
def walkChildren (foundNode : Option Node) : List Node → Option Node
  | [] => foundNode
  | c :: rest => walkChildren (walk foundNode c) rest
end

/-- The content loop of `checkForReadings` over the children of the found node. -/
def contentLoop : List Node → Bool
  | [] => false
  | c :: rest =>
    if c.Kind = NodeType.ElementNode then true
    else if c.Kind = NodeType.TextNode ∧ len (TrimSpace c.Data) > 0 then true
    else contentLoop rest

/-- The function `checkForReadings`, from the result of `html.Parse` on: a parse error
gives `false`, otherwise the tree is walked and the found node's children inspected. -/
def checkForReadings (parsed : Except String Node) : Bool :=
  match parsed with
  | .error _ => false
  | .ok doc =>
    match walk none doc with
    | some foundNode => contentLoop foundNode.children
    | none => false

/-! ### The document-order reading of the presence predicate -/

mutual
/-- The nodes of a tree in depth-first document order (a node before its children,
children left to right). -/
def preorder : Node → List Node
  | Node.mk t d a cs => Node.mk t d a cs :: preorderList cs
/-- The nodes of a forest in depth-first document order. -/
def preorderList : List Node → List Node
  | [] => []
  | c :: rest => preorder c ++ preorderList rest
end

/-- An element node carrying an attribute whose key is `data-readings`. -/
def carriesMarker (n : Node) : Bool :=
  n.Kind == NodeType.ElementNode && n.Attr.any (fun attr => attr.Key == "data-readings")

/-- The first element carrying the marker attribute, in document order. -/
def firstMarker (doc : Node) : Option Node :=
  (preorder doc).find? carriesMarker

/-- A child that counts as content: an element node, or a text node whose data is
non-empty after trimming white space. -/
def isContent (c : Node) : Bool :=
  c.Kind == NodeType.ElementNode
    || (c.Kind == NodeType.TextNode && decide (TrimSpace c.Data ≠ ""))

/-- A child that is an element node or a text node with some non-white-space character. -/
def isNonBlank (c : Node) : Bool :=
  c.Kind == NodeType.ElementNode
    || (c.Kind == NodeType.TextNode && c.Data.data.any (fun r => !IsSpace r))

/-- A document node with the given children. -/
def document (cs : List Node) : Node :=
  Node.mk NodeType.DocumentNode "" [] cs

/-- An element node. -/
def element (tag : String) (attrs : List Attribute) (cs : List Node) : Node :=
  Node.mk NodeType.ElementNode tag attrs cs

/-- A text node. -/
def textNode (d : String) : Node :=
  Node.mk NodeType.TextNode d [] []

/-- The tree `html.Parse` builds for
`<div data-readings> </div><div data-readings>x</div>`. -/
def twoMarkers : Node :=
  document
    [element "html" []
      [element "head" [] [],
       element "body" []
        [element "div" [⟨"", "data-readings", ""⟩] [textNode " "],
         element "div" [⟨"", "data-readings", ""⟩] [textNode "x"]]]]

/-- The tree `html.Parse` builds for `<div data-readings><a>1</a></div>`. -/
def oneMarker : Node :=
  document
    [element "html" []
      [element "head" [] [],
       element "body" []
        [element "div" [⟨"", "data-readings", ""⟩]
          [element "a" [] [textNode "1"]]]]]

/-! ## Records of the wire protocol and of the output -/

/-- The record `SubscriptionMessage`. -/
structure SubscriptionMessage where
  Command : String
  Identifier : String
  deriving DecidableEq, Repr

/-- The record `PingMessage`. -/
structure PingMessage where
  Command : String
  Identifier : String
  Data : String
  deriving DecidableEq, Repr

/-- The record `Unread`. -/
structure Unread where
  Section : String
  Readable : String
  Identifier : String
  deriving DecidableEq, Repr

/-- The record `Payload`. -/
structure Payload where
  Action : String
  Unreads : List Unread
  deriving DecidableEq, Repr

/-- The record `IncomingMessage` (its field `Type` is `Kind` here). -/
structure IncomingMessage where
  Identifier : String
  Message : Payload
  Kind : String
  deriving DecidableEq, Repr

/-- The record `OutputFormat`. -/
structure OutputFormat where
  Text : String
  Class : String
  deriving DecidableEq, Repr

/-- The literal identifier of the Unreads channel, `{"channel":"UnreadsChannel"}`. -/
def UnreadsChannel : String := "\x7b\"channel\":\"UnreadsChannel\"\x7d"

/-- The literal identifier of the Monitoring channel, `{"channel":"MonitoringChannel"}`. -/
def MonitoringChannel : String := "\x7b\"channel\":\"MonitoringChannel\"\x7d"

/-- The value `subUnreads` of `runConnection`. -/
def subUnreads : SubscriptionMessage :=
  { Command := "subscribe", Identifier := UnreadsChannel }

/-- The value `subMonitor` of `runConnection`. -/
def subMonitor : SubscriptionMessage :=
  { Command := "subscribe", Identifier := MonitoringChannel }

/-- The value `pingMsg` of the heartbeat goroutine. -/
def pingMsg : PingMessage :=
  { Command := "message", Identifier := MonitoringChannel,
    Data := "\x7b\"action\":\"ping\"\x7d" }

/-- The function `printOutput`: the record it marshals and prints as one line. -/
def printOutput (value : Bool) : OutputFormat :=
  if value then { Text := " \uE800 ", Class := "has notifications" }
  else { Text := "", Class := "no notifications" }

/-! ## The reader goroutine of `runConnection` -/

/-- What one iteration of the reader meets: `c.ReadMessage` fails, or it returns a
frame on which `json.Unmarshal` fails, or a frame decoded into an `IncomingMessage`. -/
inductive Inbound
  | readError (err : String)
  | malformed
  | message (incoming : IncomingMessage)
  deriving DecidableEq, Repr

/-- Where a goroutine of the session stands: not yet started, in its loop, holding an
error it is sending on `errChan`, or returned. -/
inductive Activity
  | notStarted
  | running
  | sending (err : String)
  | returned
  deriving DecidableEq, Repr

/-- The reader goroutine: the captured variable `ignoreInitialEmpty`, the lines it has
printed so far (oldest first), and where it stands. -/
structure Reader where
  ignoreInitialEmpty : Bool
  stdout : List OutputFormat
  status : Activity
  deriving DecidableEq, Repr

/-- One iteration of the reader's `for` loop on what `c.ReadMessage` and
`json.Unmarshal` give. -/
def readerIteration (rd : Reader) (r : Inbound) : Reader :=
  match rd.status with
  | .running =>
    match r with
    | .readError err => { rd with status := .sending err }
    | .malformed => rd
    | .message incoming =>
      if incoming.Identifier = UnreadsChannel then
        let unreadCount := incoming.Message.Unreads.length
        if rd.ignoreInitialEmpty then
          if unreadCount = 0 then
            { rd with ignoreInitialEmpty := false }
          else
            { rd with ignoreInitialEmpty := false,
                      stdout := rd.stdout ++ [printOutput (decide (unreadCount > 0))] }
        else
          { rd with stdout := rd.stdout ++ [printOutput (decide (unreadCount > 0))] }
      else rd
  | _ => rd

/-- The reader as started by `runConnection`: `ignoreInitialEmpty := hasInitialNotifications`. -/
def startReader (hasInitialNotifications : Bool) : Reader :=
  { ignoreInitialEmpty := hasInitialNotifications, stdout := [], status := .running }

/-- The reader's loop run over the successive results of `c.ReadMessage`. -/
def readerLoop (hasInitialNotifications : Bool) (reads : List Inbound) : Reader :=
  reads.foldl readerIteration (startReader hasInitialNotifications)

/-- An inbound result that is a decoded frame of the Unreads channel. -/
def isUnreads : Inbound → Bool
  | .message incoming => incoming.Identifier == UnreadsChannel
  | _ => false

/-- An inbound result that is a frame (no read failure) other than a decoded Unreads
frame: undecodable, or decoded with another identifier. -/
def isOtherFrame : Inbound → Bool
  | .readError _ => false
  | .malformed => true
  | .message incoming => incoming.Identifier != UnreadsChannel

/-- The values `len(unreads) > 0` of the decoded Unreads frames received before the
first read failure, in arrival order. -/
def unreadStates : List Inbound → List Bool
  | [] => []
  | .readError _ :: _ => []
  | .malformed :: rest => unreadStates rest
  | .message incoming :: rest =>
    if incoming.Identifier = UnreadsChannel then
      decide (incoming.Message.Unreads.length > 0) :: unreadStates rest
    else unreadStates rest

/-- A decoded frame with the given identifier carrying `n` unread items. -/
def frame (identifier : String) (n : Nat) : Inbound :=
  .message { Identifier := identifier,
             Message := { Action := "", Unreads := List.replicate n ⟨"", "", ""⟩ },
             Kind := "message" }

/-! ## One session: `runConnection`

The three activities of a session (the heartbeat goroutine, the reader goroutine and the
`select` that ends `runConnection`) are interleaved by a schedule, a list of events.  A
write on the socket, with the `Lock` and `Unlock` around it, is one event.  The buffered
channel `errChan` (capacity 1) is the list of the values it holds. -/

/-- A frame handed to the socket: by `c.WriteJSON` a subscription or a ping, by
`c.WriteMessage(websocket.CloseMessage, websocket.FormatCloseMessage(code, text))` a
close frame. -/
inductive Written
  | subscription (m : SubscriptionMessage)
  | ping (m : PingMessage)
  | close (code : Nat) (text : String)
  deriving DecidableEq, Repr

/-- One write call on the socket: the frame, and whether `writeMutex` was held. -/
structure WireEntry where
  frame : Written
  locked : Bool
  deriving DecidableEq, Repr

/-- The constant `websocket.CloseNormalClosure`. -/
def CloseNormalClosure : Nat := 1000

/-- The state of one call of `runConnection`. -/
structure Session where
  writeMutex : Bool
  wire : List WireEntry
  errChan : List String
  heartbeat : Activity
  reader : Reader
  result : Option Bool
  deriving DecidableEq, Repr

/-- The method `writeMutex.Lock`. -/
def Lock (s : Session) : Session :=
  { s with writeMutex := true }

/-- The method `writeMutex.Unlock`. -/
def Unlock (s : Session) : Session :=
  { s with writeMutex := false }

/-- A write call on the socket, `c.WriteJSON` or `c.WriteMessage`. -/
def Write (s : Session) (frame : Written) : Session :=
  { s with wire := s.wire ++ [{ frame := frame, locked := s.writeMutex }] }

/-- The closure `writeJSON`: lock, write, unlock (the error it returns is the
environment's). -/
def writeJSON (s : Session) (v : Written) : Session :=
  Unlock (Write (Lock s) v)

/-- The events of a session. -/
inductive Event
  /-- The heartbeat's `select` takes `<-ticker.C`; `writeJSON(pingMsg)` returns `err`. -/
  | tick (err : Option String)
  /-- The heartbeat's `errChan <- err` completes. -/
  | heartbeatSend
  /-- The heartbeat's `select` takes `<-errChan`. -/
  | heartbeatRecv
  /-- The reader runs one iteration on the result of `c.ReadMessage`. -/
  | read (r : Inbound)
  /-- The reader's `errChan <- err` completes. -/
  | readerSend
  /-- The final `select` takes `<-interrupt`. -/
  | interrupt
  /-- The final `select` takes `<-errChan`. -/
  | mainRecv
  deriving DecidableEq, Repr

/-- One event of a session; `none` when the event cannot happen in this state.  Nothing
happens in a session once `runConnection` has returned. -/
def step (s : Session) : Event → Option Session
  | .tick err =>
    if s.result = none ∧ s.heartbeat = .running ∧ s.writeMutex = false then
      let s1 := writeJSON s (.ping pingMsg)
      match err with
      | some e => some { s1 with heartbeat := .sending e }
      | none => some s1
    else none
  | .heartbeatSend =>
    match s.result, s.heartbeat, s.errChan with
    | none, .sending e, [] => some { s with errChan := [e], heartbeat := .returned }
    | _, _, _ => none
  | .heartbeatRecv =>
    match s.result, s.heartbeat, s.errChan with
    | none, .running, _ :: rest => some { s with errChan := rest, heartbeat := .returned }
    | _, _, _ => none
  | .read r =>
    if s.result = none ∧ s.reader.status = .running then
      some { s with reader := readerIteration s.reader r }
    else none
  | .readerSend =>
    match s.result, s.reader.status, s.errChan with
    | none, .sending e, [] =>
      some { s with errChan := [e], reader := { s.reader with status := .returned } }
    | _, _, _ => none
  | .interrupt =>
    if s.result = none ∧ s.writeMutex = false then
      some { Unlock (Write (Lock s) (.close CloseNormalClosure "")) with result := some true }
    else none
  | .mainRecv =>
    match s.result, s.errChan with
    | none, _ :: rest => some { s with errChan := rest, result := some false }
    | _, _ => none

/-- A schedule run from a state; an event that cannot happen is passed over. -/
def exec (s : Session) : List Event → Session
  | [] => s
  | e :: rest =>
    match step s e with
    | some s1 => exec s1 rest
    | none => exec s rest

/-- What the environment does during one call of `runConnection`: whether
`getCookieJar` returns a jar (it ends the process with `log.Fatal` otherwise), the
errors of `dialer.Dial` and of the two subscribe writes, and the schedule of the
session's events. -/
structure Connection where
  cookieJar : Bool
  dialErr : Option String
  subUnreadsErr : Option String
  subMonitorErr : Option String
  schedule : List Event
  deriving DecidableEq, Repr

/-- How a call of `runConnection` ends: it returns `shouldExit`, or the process is
ended by `log.Fatal`, or the call is still blocked in its `select` when the schedule
is exhausted. -/
inductive Outcome
  | returned (shouldExit : Bool)
  | fatal
  | blocked
  deriving DecidableEq, Repr

/-- The session before anything is written. -/
def newSession : Session :=
  { writeMutex := false, wire := [], errChan := [], heartbeat := .notStarted,
    reader := { ignoreInitialEmpty := false, stdout := [], status := .notStarted },
    result := none }

/-- The session once both goroutines are started. -/
def startActivities (s : Session) (hasInitialNotifications : Bool) : Session :=
  { s with errChan := [], heartbeat := .running, reader := startReader hasInitialNotifications }

/-- The function `runConnection`. -/
def runConnection (env : Connection) (hasInitialNotifications : Bool) : Outcome × Session :=
  if env.cookieJar = false then (.fatal, newSession)
  else
    match env.dialErr with
    | some _ => (.returned false, newSession)
    | none =>
      let s1 := writeJSON newSession (.subscription subUnreads)
      match env.subUnreadsErr with
      | some _ => (.returned false, s1)
      | none =>
        let s2 := writeJSON s1 (.subscription subMonitor)
        match env.subMonitorErr with
        | some _ => (.returned false, s2)
        | none =>
          let s3 := exec (startActivities s2 hasInitialNotifications) env.schedule
          match s3.result with
          | some shouldExit => (.returned shouldExit, s3)
          | none => (.blocked, s3)

/-! ## The supervisor: `initialCheck` and `main` -/

/-- What the process is seen to do, in order. -/
inductive Obs
  /-- A call `checkForUpdates(accountID, profileName, urlPath)`. -/
  | checkForUpdates (urlPath : String)
  /-- A line printed by `printOutput`. -/
  | stdout (line : OutputFormat)
  /-- A call `runConnection(interrupt, accountID, profileName, hasInitialNotifications)`. -/
  | runConnection (hasInitialNotifications : Bool)
  /-- The timer `time.After(5 * time.Second)` fires in the `select` of `main`. -/
  | after (seconds : Nat)
  deriving DecidableEq, Repr

/-- The function `initialCheck`, given what `checkForUpdates` returns on each path
(`none`: the process is ended by `log.Fatal` in `getCookieJar`).  The result is the
returned value, if the call returns, and what was seen. -/
def initialCheck (checkForUpdates : String → Option Bool) : Option Bool × List Obs :=
  match checkForUpdates "/my/navigation/readings" with
  | none => (none, [.checkForUpdates "/my/navigation/readings"])
  | some hasNotifications =>
    let second : Option Bool × List Obs :=
      if !hasNotifications then
        (checkForUpdates "/my/navigation/pings", [.checkForUpdates "/my/navigation/pings"])
      else (some hasNotifications, [])
    match second.1 with
    | none => (none, .checkForUpdates "/my/navigation/readings" :: second.2)
    | some hasNotifications =>
      (some hasNotifications,
        .checkForUpdates "/my/navigation/readings"
          :: (second.2 ++ [.stdout (printOutput hasNotifications)]))

/-- What the environment does during one turn of the loop of `main`: the session, and
which case the `select` after a failed session takes (`<-interrupt` or the timer). -/
structure Attempt where
  conn : Connection
  interrupted : Bool
  deriving DecidableEq, Repr

/-- How far the process got: it exited from `main`, it was ended by `log.Fatal`, or it
is still running when the environment's script is exhausted. -/
inductive Status
  | exited
  | fatal
  | running
  deriving DecidableEq, Repr

/-- The `for` loop of `main`, entered with the variable `initialState`. -/
def mainLoop (initialState : Bool) : List Attempt → Status × List Obs
  | [] => (.running, [])
  | a :: rest =>
    let r := runConnection a.conn initialState
    let seen := Obs.runConnection initialState :: r.2.reader.stdout.map Obs.stdout
    match r.1 with
    | .fatal => (.fatal, seen)
    | .blocked => (.running, seen)
    | .returned true => (.exited, seen)
    | .returned false =>
      if a.interrupted then (.exited, seen)
      else
        let next := mainLoop false rest
        (next.1, seen ++ Obs.after 5 :: next.2)

/-- The function `main`, from the value of `BASECAMP_NOTIFIER_ACCOUNT_ID` on. -/
def main (accountID : String) (checkForUpdates : String → Option Bool)
    (attempts : List Attempt) : Status × List Obs :=
  if accountID = "" then (.fatal, [])
  else
    match initialCheck checkForUpdates with
    | (none, seen) => (.fatal, seen)
    | (some initialState, seen) =>
      let run := mainLoop initialState attempts
      (run.1, seen ++ run.2)

/-- The values `hasInitialNotifications` of the calls of `runConnection`, in order. -/
def seeds : List Obs → List Bool
  | [] => []
  | .runConnection b :: rest => b :: seeds rest
  | _ :: rest => seeds rest

/-- The lines printed, in order. -/
def printed : List Obs → List OutputFormat
  | [] => []
  | .stdout line :: rest => line :: printed rest
  | _ :: rest => printed rest

/-- The results of `c.ReadMessage` in a schedule, in order. -/
def readsOf : List Event → List Inbound
  | [] => []
  | .read r :: rest => r :: readsOf rest
  | _ :: rest => readsOf rest

/-- Two readers with the same flag and output, both in their loop or both out of it. -/
def SameOutput (a b : Reader) : Prop :=
  a.ignoreInitialEmpty = b.ignoreInitialEmpty ∧ a.stdout = b.stdout
    ∧ (a.status = .running ↔ b.status = .running)

/-- An account on which the readings probe finds nothing and the pings probe finds
unread items. -/
def pingsOnly (urlPath : String) : Option Bool :=
  if urlPath = "/my/navigation/readings" then some false else some true

/-- A connection that is established and then runs the given schedule. -/
def connected (schedule : List Event) : Connection :=
  { cookieJar := true, dialErr := none, subUnreadsErr := none, subMonitorErr := none,
    schedule := schedule }

/-- A session that prints `true`, then loses the socket: the read fails, the reader sends
the error and the final `select` receives it. -/
def lostAfterTrue : Attempt :=
  { conn := connected [.read (frame UnreadsChannel 1), .tick none, .read (.readError "EOF"),
      .readerSend, .mainRecv],
    interrupted := false }

/-- A turn in which `dialer.Dial` fails and the timer fires. -/
def dialFails : Attempt :=
  { conn := { cookieJar := true, dialErr := some "dial tcp: timeout", subUnreadsErr := none,
              subMonitorErr := none, schedule := [] },
    interrupted := false }

/-- A turn in which the second subscribe write fails and the timer fires. -/
def subscribeFails : Attempt :=
  { conn := { cookieJar := true, dialErr := none, subUnreadsErr := none,
              subMonitorErr := some "broken pipe", schedule := [.tick none] },
    interrupted := false }

/-- A session ended by the interrupt after one heartbeat. -/
def cancelled : Attempt :=
  { conn := connected [.tick none, .read (frame UnreadsChannel 0), .interrupt],
    interrupted := false }

/-- A turn in which the dial fails and the interrupt arrives during the wait. -/
def cancelledInBackoff : Attempt :=
  { conn := dialFails.conn, interrupted := true }

/-- The schedule in which the read fails, the reader sends the error on `errChan`, and
the heartbeat's `select` receives it. -/
def stolenSchedule : List Event :=
  [.read (.readError "EOF"), .readerSend, .heartbeatRecv]

/-- The session after both subscribe writes, with both goroutines started. -/
def started (hasInitialNotifications : Bool) : Session :=
  startActivities
    (writeJSON (writeJSON newSession (.subscription subUnreads)) (.subscription subMonitor))
    hasInitialNotifications

/-- The state a session is left in once the heartbeat has taken the reader's error. -/
def stolenState (hasInitialNotifications : Bool) : Session :=
  { writeMutex := false,
    wire := [{ frame := .subscription subUnreads, locked := true },
             { frame := .subscription subMonitor, locked := true }],
    errChan := [],
    heartbeat := .returned,
    reader := { ignoreInitialEmpty := hasInitialNotifications, stdout := [],
                status := .returned },
    result := none }

/-- What every event keeps: the mutex is free between events, the wire only grows, by
pings and close frames, and a session that has returned true wrote a close frame last,
with the mutex held. -/
structure Grows (s t : Session) : Prop where
  mutex : t.writeMutex = false
  grows : ∃ extra : List WireEntry, t.wire = s.wire ++ extra
    ∧ ∀ w ∈ extra, w.frame = .ping pingMsg ∨ w.frame = .close CloseNormalClosure ""
  closed : t.result = some true →
    t.wire.getLast? = some { frame := .close CloseNormalClosure "", locked := true }

/-! ### Lemmas on the presence predicate -/

theorem hasReadingsAttr_eq_any (attrs : List Attribute) :
    hasReadingsAttr attrs = attrs.any (fun attr => attr.Key == "data-readings") := by
  induction attrs with
  | nil => rfl
  | cons attr rest ih =>
    by_cases h : attr.Key = "data-readings" <;> simp [hasReadingsAttr, h, ih]

mutual
theorem walk_eq_find (found : Option Node) :
    ∀ n : Node, walk found n = (found <|> (preorder n).find? carriesMarker)
  | Node.mk t d a cs => by
    cases found with
    | some m => simp [walk]
    | none =>
      by_cases h : t = NodeType.ElementNode ∧ hasReadingsAttr a = true
      · have hm : carriesMarker (Node.mk t d a cs) = true := by
          simp [carriesMarker, Node.Kind, Node.Attr, h.1, ← hasReadingsAttr_eq_any, h.2]
        rw [walk, preorder, List.find?_cons, hm]
        simp [h]
      · have hm : carriesMarker (Node.mk t d a cs) = false := by
          simp only [carriesMarker, Node.Kind, Node.Attr, ← hasReadingsAttr_eq_any]
          by_cases ht : t = NodeType.ElementNode
          · have : hasReadingsAttr a = false := by
              cases hh : hasReadingsAttr a with
              | false => rfl
              | true => exact absurd ⟨ht, hh⟩ h
            simp [this]
          · simp [ht]
        have ih := walkChildren_eq_find none cs
        simp [walk, preorder, h, hm, ih]
theorem walkChildren_eq_find (found : Option Node) :
    ∀ cs : List Node,
      walkChildren found cs = (found <|> (preorderList cs).find? carriesMarker)
  | [] => by cases found <;> simp [walkChildren, preorderList]
  | c :: rest => by
    have h1 := walk_eq_find found c
    have h2 := walkChildren_eq_find (walk found c) rest
    rw [walkChildren, h2, h1]
    cases found with
    | some m => simp
    | none =>
      simp only [preorderList, List.find?_append]
      cases (preorder c).find? carriesMarker <;> simp
end

theorem len_pos_iff (s : String) : 0 < len s ↔ s ≠ "" := by
  obtain ⟨cs⟩ := s
  cases cs with
  | nil => simp [len, String.utf8ByteSize, String.utf8ByteSize.go]
  | cons c rest =>
    have hc : 0 < c.utf8Size := Char.utf8Size_pos c
    have hne : (⟨c :: rest⟩ : String) ≠ "" := by
      intro h
      have := congrArg String.data h
      simp at this
    simp only [len, String.utf8ByteSize, String.utf8ByteSize.go, ne_eq, hne, not_false_eq_true,
      iff_true]
    omega

theorem dropWhile_eq_nil_iff_all (p : Char → Bool) (l : List Char) :
    l.dropWhile p = [] ↔ ∀ r ∈ l, p r = true := by
  induction l with
  | nil => simp
  | cons a rest ih =>
    by_cases h : p a = true
    · simp [List.dropWhile_cons, h, ih]
    · simp [List.dropWhile_cons, h]

theorem TrimSpace_eq_empty_iff (s : String) :
    TrimSpace s = "" ↔ ∀ r ∈ s.data, IsSpace r = true := by
  have h0 : TrimSpace s = "" ↔
      ((s.data.dropWhile IsSpace).reverse.dropWhile IsSpace).reverse = [] := by
    constructor
    · intro h
      have := congrArg String.data h
      simpa [TrimSpace] using this
    · intro h
      simp only [TrimSpace, h]
  rw [h0, List.reverse_eq_nil_iff, dropWhile_eq_nil_iff_all]
  constructor
  · intro h
    by_contra hcon
    push_neg at hcon
    obtain ⟨r, hr, hsp⟩ := hcon
    have hne : s.data.dropWhile IsSpace ≠ [] := by
      intro he
      exact hsp ((dropWhile_eq_nil_iff_all IsSpace s.data).1 he r hr)
    obtain ⟨a, rest, hcons⟩ := List.exists_cons_of_ne_nil hne
    have ha : IsSpace a = true := h a (by simp [hcons])
    have hhead := List.head_dropWhile_not IsSpace s.data hne
    simp [hcons, ha] at hhead
  · intro h r hr
    have hr2 : r ∈ s.data.dropWhile IsSpace := by simpa using hr
    exact h r ((List.dropWhile_sublist IsSpace).subset hr2)

theorem isContent_eq_isNonBlank (c : Node) : isContent c = isNonBlank c := by
  have h : decide (TrimSpace c.Data ≠ "") = c.Data.data.any (fun r => !IsSpace r) := by
    by_cases ht : TrimSpace c.Data = ""
    · have hall := (TrimSpace_eq_empty_iff c.Data).1 ht
      have : c.Data.data.any (fun r => !IsSpace r) = false := by
        simpa [List.any_eq_false] using hall
      simp [ht, this]
    · have hex : ¬ ∀ r ∈ c.Data.data, IsSpace r = true :=
        fun hall => ht ((TrimSpace_eq_empty_iff c.Data).2 hall)
      push_neg at hex
      obtain ⟨r, hr, hsp⟩ := hex
      have : c.Data.data.any (fun r => !IsSpace r) = true :=
        List.any_eq_true.2 ⟨r, hr, by simpa using hsp⟩
      simp [ht, this]
  simp [isContent, isNonBlank, h]

theorem contentLoop_eq_any (cs : List Node) : contentLoop cs = cs.any isContent := by
  induction cs with
  | nil => rfl
  | cons c rest ih =>
    have hlen : (len (TrimSpace c.Data) > 0) ↔ TrimSpace c.Data ≠ "" := len_pos_iff _
    rw [contentLoop, List.any_cons, ← ih]
    by_cases h3 : len (TrimSpace c.Data) > 0
    · have h4 := hlen.1 h3
      cases hk : c.Kind <;> simp [isContent, hk, h3, h4]
    · have h4 : TrimSpace c.Data = "" := by
        by_contra hh
        exact h3 (hlen.2 hh)
      have h5 : ¬ (0 < len "") := by simp [len_pos_iff]
      cases hk : c.Kind <;> simp [isContent, hk, h4, h5]

theorem checkForReadings_eq (doc : Node) :
    checkForReadings (.ok doc) =
      match firstMarker doc with
      | some m => m.children.any isContent
      | none => false := by
  have h := walk_eq_find none doc
  simp only [Option.none_orElse] at h
  unfold checkForReadings firstMarker
  simp only [h]
  cases (preorder doc).find? carriesMarker with
  | none => rfl
  | some m => simp [contentLoop_eq_any]

/-! ### Lemmas on the reader -/

theorem readerIteration_other (rd : Reader) (r : Inbound) (h : isOtherFrame r = true) :
    readerIteration rd r = rd := by
  unfold readerIteration
  cases hs : rd.status <;> simp only []
  cases r with
  | readError err => simp [isOtherFrame] at h
  | malformed => rfl
  | message incoming =>
    have hne : incoming.Identifier ≠ UnreadsChannel := by simpa [isOtherFrame] using h
    simp [hne]

theorem foldl_other (rd : Reader) (reads : List Inbound)
    (h : ∀ r ∈ reads, isOtherFrame r = true) :
    reads.foldl readerIteration rd = rd := by
  induction reads with
  | nil => rfl
  | cons r rest ih =>
    rw [List.foldl_cons, readerIteration_other rd r (h r (by simp))]
    exact ih (fun x hx => h x (by simp [hx]))

theorem foldl_stopped (rd : Reader) (reads : List Inbound) (h : rd.status ≠ .running) :
    reads.foldl readerIteration rd = rd := by
  induction reads with
  | nil => rfl
  | cons r rest ih =>
    have hstep : readerIteration rd r = rd := by
      unfold readerIteration
      cases hs : rd.status <;> simp_all
    rw [List.foldl_cons, hstep]
    exact ih

theorem foldl_disarmed (reads : List Inbound) :
    ∀ rd : Reader, rd.status = .running → rd.ignoreInitialEmpty = false →
      (reads.foldl readerIteration rd).stdout
          = rd.stdout ++ (unreadStates reads).map printOutput
        ∧ (reads.foldl readerIteration rd).ignoreInitialEmpty = false := by
  induction reads with
  | nil => intro rd _ hf; simp [unreadStates, hf]
  | cons r rest ih =>
    intro rd hs hf
    cases r with
    | readError err =>
      have hstep : readerIteration rd (.readError err) = { rd with status := .sending err } := by
        simp [readerIteration, hs]
      rw [List.foldl_cons, hstep, foldl_stopped _ _ (by simp)]
      simp [unreadStates, hf]
    | malformed =>
      have hstep : readerIteration rd .malformed = rd := by simp [readerIteration, hs]
      rw [List.foldl_cons, hstep]
      simpa [unreadStates] using ih rd hs hf
    | message incoming =>
      by_cases hid : incoming.Identifier = UnreadsChannel
      · have hstep : readerIteration rd (.message incoming) =
            { rd with stdout := rd.stdout
                ++ [printOutput (decide (incoming.Message.Unreads.length > 0))] } := by
          simp [readerIteration, hs, hid, hf]
        rw [List.foldl_cons, hstep]
        have := ih { rd with stdout := rd.stdout
                ++ [printOutput (decide (incoming.Message.Unreads.length > 0))] } hs hf
        simpa [unreadStates, hid] using this
      · have hstep : readerIteration rd (.message incoming) = rd := by
          simp [readerIteration, hs, hid]
        rw [List.foldl_cons, hstep]
        simpa [unreadStates, hid] using ih rd hs hf

theorem readerLoop_append (b : Bool) (xs ys : List Inbound) :
    readerLoop b (xs ++ ys) = ys.foldl readerIteration (readerLoop b xs) := by
  simp [readerLoop, List.foldl_append]

theorem readerLoop_other (b : Bool) (pre : List Inbound)
    (h : ∀ r ∈ pre, isOtherFrame r = true) : readerLoop b pre = startReader b :=
  foldl_other _ _ h

/-! ### Lemmas on sessions -/

theorem exec_append (s : Session) (xs ys : List Event) :
    exec s (xs ++ ys) = exec (exec s xs) ys := by
  induction xs generalizing s with
  | nil => rfl
  | cons e rest ih =>
    simp only [List.cons_append, exec]
    cases step s e with
    | none => exact ih s
    | some s1 => exact ih s1

theorem step_result (s t : Session) (e : Event) (h : step s e = some t) :
    s.result = none := by
  cases hr : s.result with
  | none => rfl
  | some b =>
    cases e <;> simp [step, hr] at h

theorem step_grows (s t : Session) (e : Event) (hm : s.writeMutex = false)
    (h : step s e = some t) : Grows s t := by
  have hres := step_result s t e h
  cases e with
  | tick err =>
    by_cases hc : s.result = none ∧ s.heartbeat = .running ∧ s.writeMutex = false
    · cases err with
      | none =>
        simp only [step, hc, and_self, if_true, Option.some.injEq] at h
        subst h
        exact ⟨rfl, ⟨[_], rfl, by simp⟩, by simp [writeJSON, Unlock, Write, Lock, hres]⟩
      | some er =>
        simp only [step, hc, and_self, if_true, Option.some.injEq] at h
        subst h
        exact ⟨rfl, ⟨[_], rfl, by simp⟩, by simp [writeJSON, Unlock, Write, Lock, hres]⟩
    · simp [step, hc] at h
  | heartbeatSend =>
    simp only [step] at h
    split at h
    · simp only [Option.some.injEq] at h
      subst h
      exact ⟨hm, ⟨[], by simp, by simp⟩, by simp [hres]⟩
    · simp at h
  | heartbeatRecv =>
    simp only [step] at h
    split at h
    · simp only [Option.some.injEq] at h
      subst h
      exact ⟨hm, ⟨[], by simp, by simp⟩, by simp [hres]⟩
    · simp at h
  | read r =>
    by_cases hc : s.result = none ∧ s.reader.status = .running
    · simp only [step, hc, and_self, if_true, Option.some.injEq] at h
      subst h
      exact ⟨hm, ⟨[], by simp, by simp⟩, by simp [hres]⟩
    · simp [step, hc] at h
  | readerSend =>
    simp only [step] at h
    split at h
    · simp only [Option.some.injEq] at h
      subst h
      exact ⟨hm, ⟨[], by simp, by simp⟩, by simp [hres]⟩
    · simp at h
  | interrupt =>
    by_cases hc : s.result = none ∧ s.writeMutex = false
    · simp only [step, hc, and_self, if_true, Option.some.injEq] at h
      subst h
      exact ⟨rfl, ⟨[_], rfl, by simp⟩, by simp [Unlock, Write, Lock]⟩
    · simp [step, hc] at h
  | mainRecv =>
    simp only [step] at h
    split at h
    · simp only [Option.some.injEq] at h
      subst h
      exact ⟨hm, ⟨[], by simp, by simp⟩, by simp⟩
    · simp at h

theorem exec_grows (evs : List Event) :
    ∀ s : Session, s.writeMutex = false →
      (s.result = some true →
        s.wire.getLast? = some { frame := .close CloseNormalClosure "", locked := true }) →
      Grows s (exec s evs) := by
  induction evs with
  | nil =>
    intro s hm hc
    exact ⟨hm, ⟨[], by simp [exec], by simp⟩, hc⟩
  | cons e rest ih =>
    intro s hm hc
    simp only [exec]
    cases hstep : step s e with
    | none => exact ih s hm hc
    | some s1 =>
      have g1 := step_grows s s1 e hm hstep
      have g2 := ih s1 g1.mutex g1.closed
      obtain ⟨x1, hx1, hp1⟩ := g1.grows
      obtain ⟨x2, hx2, hp2⟩ := g2.grows
      refine ⟨g2.mutex, ⟨x1 ++ x2, by rw [hx2, hx1, List.append_assoc], ?_⟩, g2.closed⟩
      intro w hw
      rcases List.mem_append.1 hw with h | h
      · exact hp1 w h
      · exact hp2 w h

/-- The two subscribe writes of `runConnection`, each with the mutex held. -/
theorem subscribed_wire :
    (writeJSON (writeJSON newSession (.subscription subUnreads))
        (.subscription subMonitor)).wire
      = [{ frame := .subscription subUnreads, locked := true },
         { frame := .subscription subMonitor, locked := true }] := rfl

theorem runConnection_connected (env : Connection) (b : Bool) (hj : env.cookieJar = true)
    (hd : env.dialErr = none) (h1 : env.subUnreadsErr = none) (h2 : env.subMonitorErr = none) :
    runConnection env b =
      (match (exec (startActivities (writeJSON (writeJSON newSession
          (.subscription subUnreads)) (.subscription subMonitor)) b) env.schedule).result with
        | some shouldExit => Outcome.returned shouldExit
        | none => Outcome.blocked,
       exec (startActivities (writeJSON (writeJSON newSession
          (.subscription subUnreads)) (.subscription subMonitor)) b) env.schedule) := by
  unfold runConnection
  simp only [hj, hd, h1, h2]
  cases (exec (startActivities (writeJSON (writeJSON newSession
          (.subscription subUnreads)) (.subscription subMonitor)) b) env.schedule).result <;> simp

theorem started_grows (b : Bool) (evs : List Event) :
    Grows (startActivities (writeJSON (writeJSON newSession
          (.subscription subUnreads)) (.subscription subMonitor)) b)
      (exec (startActivities (writeJSON (writeJSON newSession
          (.subscription subUnreads)) (.subscription subMonitor)) b) evs) :=
  exec_grows evs _ rfl (by intro h; simp [startActivities, writeJSON, Unlock, Write, Lock,
    newSession] at h)

/-- The frames written by a call of `runConnection`: none, or the Unreads subscription
alone, or both subscriptions followed by pings and close frames only. -/
theorem runConnection_wire (env : Connection) (b : Bool) :
    (runConnection env b).2.wire.map WireEntry.frame = []
      ∨ ((runConnection env b).2.wire.map WireEntry.frame = [.subscription subUnreads]
          ∧ env.subUnreadsErr ≠ none)
      ∨ ∃ extra : List Written,
          (runConnection env b).2.wire.map WireEntry.frame
            = .subscription subUnreads :: .subscription subMonitor :: extra
          ∧ (∀ f ∈ extra, f = .ping pingMsg ∨ f = .close CloseNormalClosure "")
          ∧ (env.subMonitorErr ≠ none → extra = []) := by
  by_cases hj : env.cookieJar = true
  · cases hd : env.dialErr with
    | some e => left; simp [runConnection, hj, hd, newSession]
    | none =>
      cases h1 : env.subUnreadsErr with
      | some e =>
        right; left
        simp [runConnection, hj, hd, h1, newSession, writeJSON, Unlock, Write, Lock]
      | none =>
        right; right
        cases h2 : env.subMonitorErr with
        | some e =>
          refine ⟨[], ?_, by simp, by simp⟩
          simp [runConnection, hj, hd, h1, h2, newSession, writeJSON, Unlock, Write, Lock]
        | none =>
          rw [runConnection_connected env b hj hd h1 h2]
          obtain ⟨extra, hx, hp⟩ := (started_grows b env.schedule).grows
          refine ⟨extra.map WireEntry.frame, ?_, ?_, by simp⟩
          · simp only [hx]
            simp [startActivities, writeJSON, Unlock, Write, Lock, newSession]
          · intro f hf
            obtain ⟨w, hw, rfl⟩ := List.mem_map.1 hf
            exact hp w hw
  · left
    have : env.cookieJar = false := by simpa using hj
    simp [runConnection, this, newSession]

theorem runConnection_failed (env : Connection) (b : Bool) (hj : env.cookieJar = true)
    (h : env.dialErr ≠ none ∨ env.subUnreadsErr ≠ none ∨ env.subMonitorErr ≠ none) :
    (runConnection env b).1 = .returned false := by
  unfold runConnection
  simp only [hj]
  cases hd : env.dialErr with
  | some e => simp
  | none =>
    cases h1 : env.subUnreadsErr with
    | some e => simp
    | none =>
      cases h2 : env.subMonitorErr with
      | some e => simp
      | none => simp [hd, h1, h2] at h

/-! ### Lemmas on the supervisor -/

theorem seeds_append (xs ys : List Obs) : seeds (xs ++ ys) = seeds xs ++ seeds ys := by
  induction xs with
  | nil => rfl
  | cons x rest ih => cases x <;> simp [seeds, ih]

theorem seeds_stdout (ls : List OutputFormat) : seeds (ls.map Obs.stdout) = [] := by
  induction ls with
  | nil => rfl
  | cons l rest ih => simp [seeds, ih]

theorem seeds_initialCheck (cfu : String → Option Bool) : seeds (initialCheck cfu).2 = [] := by
  unfold initialCheck
  cases cfu "/my/navigation/readings" with
  | none => rfl
  | some r =>
    cases r with
    | true => rfl
    | false =>
      cases cfu "/my/navigation/pings" with
      | none => rfl
      | some p => rfl

theorem seeds_mainLoop_prefix (attempts : List Attempt) :
    ∀ v : Bool, seeds (mainLoop v attempts).2 <+: v :: List.replicate attempts.length false := by
  induction attempts with
  | nil => intro v; simp [mainLoop, seeds]
  | cons a rest ih =>
    intro v
    have hcons : ∀ xs : List Bool, xs <+: List.replicate (rest.length + 1) false →
        v :: xs <+: v :: List.replicate (rest.length + 1) false := by
      intro xs hxs
      exact (List.prefix_cons_inj v).2 hxs
    have hone : [v] <+: v :: List.replicate (rest.length + 1) false :=
      hcons [] (List.nil_prefix)
    have hseen : seeds (Obs.runConnection v ::
        (runConnection a.conn v).2.reader.stdout.map Obs.stdout) = [v] := by
      simp [seeds, seeds_stdout]
    simp only [mainLoop, List.length_cons]
    cases hr : (runConnection a.conn v).1 with
    | fatal => simp only [hseen]; exact hone
    | blocked => simp only [hseen]; exact hone
    | returned ex =>
      cases ex with
      | true => simp only [hseen]; exact hone
      | false =>
        by_cases hi : a.interrupted = true
        · simp only [hi, if_true, hseen]; exact hone
        · have hif : a.interrupted = false := by simpa using hi
          simp only [hif, Bool.false_eq_true, if_false, seeds_append, hseen]
          have := ih false
          simp only [seeds, List.singleton_append]
          exact hcons _ (by simpa [List.replicate_succ] using this)

theorem seeds_mainLoop_all_failed (attempts : List Attempt)
    (h : ∀ a ∈ attempts, a.interrupted = false
      ∧ ∀ b, (runConnection a.conn b).1 = .returned false) :
    ∀ v : Bool, seeds (mainLoop v attempts).2
      = (v :: List.replicate attempts.length false).take attempts.length := by
  induction attempts with
  | nil => intro v; simp [mainLoop, seeds]
  | cons a rest ih =>
    intro v
    have ha := h a (by simp)
    have hrest := ih (fun x hx => h x (by simp [hx])) false
    have hseen : seeds (Obs.runConnection v ::
        (runConnection a.conn v).2.reader.stdout.map Obs.stdout) = [v] := by
      simp [seeds, seeds_stdout]
    simp only [mainLoop, ha.2 v, ha.1, Bool.false_eq_true, if_false, seeds_append, hseen,
      List.singleton_append, List.length_cons, List.take_succ_cons]
    simp only [seeds, hrest, List.replicate_succ]

theorem mainLoop_exited_append (attempts post : List Attempt) :
    ∀ v : Bool, (mainLoop v attempts).1 = .exited →
      mainLoop v (attempts ++ post) = mainLoop v attempts := by
  induction attempts with
  | nil => intro v h; simp [mainLoop] at h
  | cons a rest ih =>
    intro v h
    simp only [List.cons_append, mainLoop] at h ⊢
    cases hr : (runConnection a.conn v).1 with
    | fatal => simp [hr] at h
    | blocked => simp [hr] at h
    | returned ex =>
      cases ex with
      | true => rfl
      | false =>
        by_cases hi : a.interrupted = true
        · simp [hi]
        · have hif : a.interrupted = false := by simpa using hi
          simp only [hr, hif, Bool.false_eq_true, if_false] at h ⊢
          have := ih false h
          simp only [List.append_eq] at this ⊢
          rw [this]

theorem readerIteration_idle (rd : Reader) (r : Inbound) (h : rd.status ≠ .running) :
    readerIteration rd r = rd := by
  unfold readerIteration
  cases hs : rd.status <;> simp_all

theorem readerIteration_sameOutput (a b : Reader) (r : Inbound) (h : SameOutput a b) :
    SameOutput (readerIteration a r) (readerIteration b r) := by
  obtain ⟨hf, ho, hs⟩ := h
  by_cases ha : a.status = .running
  · have hb : b.status = .running := hs.1 ha
    cases r with
    | readError err => simp [readerIteration, ha, hb, SameOutput, hf, ho]
    | malformed => simp [readerIteration, ha, hb, SameOutput, hf, ho]
    | message incoming =>
      by_cases hid : incoming.Identifier = UnreadsChannel
      · by_cases hz : incoming.Message.Unreads.length = 0
        · cases hfb : b.ignoreInitialEmpty <;>
            simp [readerIteration, ha, hb, SameOutput, hf, ho, hid, hz, hfb]
        · cases hfb : b.ignoreInitialEmpty <;>
            simp [readerIteration, ha, hb, SameOutput, hf, ho, hid, hz, hfb]
      · simp [readerIteration, ha, hb, SameOutput, hf, ho, hid]
  · have hb : b.status ≠ .running := fun hb => ha (hs.2 hb)
    rw [readerIteration_idle a r ha, readerIteration_idle b r hb]
    exact ⟨hf, ho, hs⟩

theorem exec_returned (evs : List Event) (s : Session) (b : Bool) (h : s.result = some b) :
    exec s evs = s := by
  induction evs with
  | nil => rfl
  | cons e rest ih =>
    simp only [exec]
    cases hstep : step s e with
    | none => exact ih
    | some t =>
      have := step_result s t e hstep
      simp [h] at this

theorem step_reader (s t : Session) (e : Event) (rd : Reader) (h : step s e = some t)
    (hs : SameOutput s.reader rd) :
    SameOutput t.reader ((readsOf [e]).foldl readerIteration rd) := by
  cases e with
  | tick err =>
    by_cases hc : s.result = none ∧ s.heartbeat = .running ∧ s.writeMutex = false
    · cases err <;>
        (simp only [step, hc, and_self, if_true, Option.some.injEq] at h
         subst h
         simpa [readsOf, writeJSON, Unlock, Write, Lock] using hs)
    · simp [step, hc] at h
  | heartbeatSend =>
    simp only [step] at h
    split at h
    · simp only [Option.some.injEq] at h
      subst h
      simpa [readsOf] using hs
    · simp at h
  | heartbeatRecv =>
    simp only [step] at h
    split at h
    · simp only [Option.some.injEq] at h
      subst h
      simpa [readsOf] using hs
    · simp at h
  | read r =>
    by_cases hc : s.result = none ∧ s.reader.status = .running
    · simp only [step, hc, and_self, if_true, Option.some.injEq] at h
      subst h
      simpa [readsOf] using readerIteration_sameOutput s.reader rd r hs
    · simp [step, hc] at h
  | readerSend =>
    simp only [step] at h
    split at h
    · rename_i hres hst hch
      simp only [Option.some.injEq] at h
      subst h
      obtain ⟨hf, ho, hrun⟩ := hs
      refine ⟨hf, ho, ?_⟩
      simp only [readsOf, List.foldl_nil]
      constructor
      · intro hx
        simp at hx
      · intro hx
        have := hrun.2 hx
        simp [hst] at this
    · simp at h
  | interrupt =>
    by_cases hc : s.result = none ∧ s.writeMutex = false
    · simp only [step, hc, and_self, if_true, Option.some.injEq] at h
      subst h
      simpa [readsOf, Unlock, Write, Lock] using hs
    · simp [step, hc] at h
  | mainRecv =>
    simp only [step] at h
    split at h
    · simp only [Option.some.injEq] at h
      subst h
      simpa [readsOf] using hs
    · simp at h

theorem readsOf_cons (e : Event) (rest : List Event) :
    readsOf (e :: rest) = readsOf [e] ++ readsOf rest := by
  cases e <;> simp [readsOf]

theorem exec_reader (evs : List Event) :
    ∀ (s : Session) (rd : Reader), SameOutput s.reader rd → (exec s evs).result = none →
      SameOutput (exec s evs).reader ((readsOf evs).foldl readerIteration rd) := by
  induction evs with
  | nil => intro s rd hs _; simpa [exec, readsOf] using hs
  | cons e rest ih =>
    intro s rd hs hres
    rw [readsOf_cons, List.foldl_append]
    simp only [exec] at hres ⊢
    cases hstep : step s e with
    | some t =>
      rw [hstep] at hres
      exact ih t _ (step_reader s t e rd hstep hs) hres
    | none =>
      rw [hstep] at hres
      have hskip : SameOutput s.reader ((readsOf [e]).foldl readerIteration rd) := by
        cases e with
        | read r =>
          have hnone : s.result = none := by
            cases hr : s.result with
            | none => rfl
            | some b => rw [exec_returned rest s b hr, hr] at hres; simp at hres
          have hst : s.reader.status ≠ .running := by
            intro hrun
            simp [step, hnone, hrun] at hstep
          have hrd : rd.status ≠ .running := fun h => hst (hs.2.2.2 h)
          simpa [readsOf, readerIteration_idle rd r hrd] using hs
        | tick err => simpa [readsOf] using hs
        | heartbeatSend => simpa [readsOf] using hs
        | heartbeatRecv => simpa [readsOf] using hs
        | readerSend => simpa [readsOf] using hs
        | interrupt => simpa [readsOf] using hs
        | mainRecv => simpa [readsOf] using hs
      exact ih s _ hskip hres

/-- The reader inside a session is the reader alone: while `runConnection` has not
returned, the lines printed and the flag are those of `readerLoop` on the results of
`c.ReadMessage` so far, however the other events are interleaved. -/
theorem session_reader (hasInitialNotifications : Bool) (evs : List Event)
    (h : (exec (started hasInitialNotifications) evs).result = none) :
    (exec (started hasInitialNotifications) evs).reader.stdout
        = (readerLoop hasInitialNotifications (readsOf evs)).stdout
      ∧ (exec (started hasInitialNotifications) evs).reader.ignoreInitialEmpty
        = (readerLoop hasInitialNotifications (readsOf evs)).ignoreInitialEmpty := by
  have hs : SameOutput (started hasInitialNotifications).reader
      (startReader hasInitialNotifications) := ⟨rfl, rfl, Iff.rfl⟩
  have := exec_reader evs _ _ hs h
  exact ⟨this.2.1, this.1⟩

theorem step_stolen (s t : Session) (e : Event) (hr : s.reader.status = .returned)
    (hh : s.heartbeat = .returned) (hc : s.errChan = []) (h : step s e = some t) :
    e = .interrupt ∧ t.reader.status = .returned ∧ t.heartbeat = .returned
      ∧ t.errChan = [] ∧ t.result = some true := by
  cases e with
  | tick err => simp [step, hh] at h
  | heartbeatSend => simp [step, hh] at h
  | heartbeatRecv => simp [step, hh] at h
  | read r => simp [step, hr] at h
  | readerSend => simp [step, hr] at h
  | mainRecv => simp [step, hc] at h
  | interrupt =>
    by_cases hg : s.result = none ∧ s.writeMutex = false
    · simp only [step, hg, and_self, if_true, Option.some.injEq] at h
      subst h
      exact ⟨rfl, by simpa [Unlock, Write, Lock] using hr,
        by simpa [Unlock, Write, Lock] using hh, by simpa [Unlock, Write, Lock] using hc, rfl⟩
    · simp [step, hg] at h

theorem exec_stolen (evs : List Event) :
    ∀ s : Session, s.reader.status = .returned → s.heartbeat = .returned → s.errChan = [] →
      s.result ≠ some false → (exec s evs).result ≠ some false := by
  induction evs with
  | nil => intro s _ _ _ h; exact h
  | cons e rest ih =>
    intro s hr hh hc hres
    simp only [exec]
    cases hstep : step s e with
    | none => exact ih s hr hh hc hres
    | some t =>
      obtain ⟨_, h1, h2, h3, h4⟩ := step_stolen s t e hr hh hc hstep
      exact ih t h1 h2 h3 (by simp [h4])

theorem exec_stolenSchedule (b : Bool) : exec (started b) stolenSchedule = stolenState b := by
  cases b <;> rfl

/-! ## The presence predicate: claims -/

/-- C10: over a parsed tree, `checkForReadings` returns true if and only if some element
carries the `data-readings` attribute and the first such element in depth-first document
order has a direct child that is an element node or a text node whose data is non-empty
after trimming white space; it returns false when no node of the tree carries the
attribute, and false when the first marked element has no such child, whatever marked
elements come later. -/
theorem checkForReadings_iff_first_marker_has_content (doc : Node) :
    (checkForReadings (.ok doc) = true ↔
        ∃ m, firstMarker doc = some m ∧ ∃ c ∈ m.children, isContent c = true)
    ∧ ((∀ n ∈ preorder doc, carriesMarker n = false) → checkForReadings (.ok doc) = false)
    ∧ (∀ m, firstMarker doc = some m → (∀ c ∈ m.children, isContent c = false) →
        checkForReadings (.ok doc) = false) := by
  have heq := checkForReadings_eq doc
  refine ⟨?_, ?_, ?_⟩
  · constructor
    · intro h
      rw [heq] at h
      cases hm : firstMarker doc with
      | none => simp [hm] at h
      | some m =>
        rw [hm] at h
        exact ⟨m, rfl, by simpa [List.any_eq_true] using h⟩
    · rintro ⟨m, hm, c, hc, hcc⟩
      rw [heq, hm]
      exact List.any_eq_true.2 ⟨c, hc, hcc⟩
  · intro hnone
    have : firstMarker doc = none := by
      unfold firstMarker
      rw [List.find?_eq_none]
      intro n hn
      simp [hnone n hn]
    rw [heq, this]
  · intro m hm hall
    rw [heq, hm]
    simpa [List.any_eq_false] using hall

/-- C10, at a concrete tree: the first marked element of `twoMarkers` has only a blank
text child, so the predicate is false although a later marked element has content. -/
theorem checkForReadings_iff_first_marker_has_content_witness :
    firstMarker twoMarkers
        = some (element "div" [⟨"", "data-readings", ""⟩] [textNode " "])
      ∧ checkForReadings (.ok twoMarkers) = false :=
  ⟨rfl,
   (checkForReadings_iff_first_marker_has_content twoMarkers).2.2
     (element "div" [⟨"", "data-readings", ""⟩] [textNode " "]) rfl (by decide)⟩

/-- C4, as stated, fails: the tree `twoMarkers` contains an element carrying
`data-readings` with a non-blank text child (the second `div`), and `checkForReadings`
returns false on it. -/
theorem checkForReadings_false_with_later_marker :
    (preorder twoMarkers).any
        (fun n => carriesMarker n && n.children.any isNonBlank) = true
      ∧ checkForReadings (.ok twoMarkers) = false := by
  decide

/-- C4, amended: when the first element carrying the `data-readings` attribute, in
depth-first document order, has at least one child that is an element node or a text node
with a non-white-space character, `checkForReadings` returns true. -/
theorem checkForReadings_true_of_first_marker_nonblank (doc m : Node)
    (hm : firstMarker doc = some m) (hc : m.children.any isNonBlank = true) :
    checkForReadings (.ok doc) = true := by
  rw [checkForReadings_eq, hm]
  obtain ⟨c, hcm, hcc⟩ := List.any_eq_true.1 hc
  exact List.any_eq_true.2 ⟨c, hcm, by rw [isContent_eq_isNonBlank]; exact hcc⟩

/-- C4, amended, at the tree of `<div data-readings><a>1</a></div>`. -/
theorem checkForReadings_true_of_first_marker_nonblank_witness :
    firstMarker oneMarker
        = some (element "div" [⟨"", "data-readings", ""⟩] [element "a" [] [textNode "1"]])
      ∧ checkForReadings (.ok oneMarker) = true :=
  ⟨rfl,
   checkForReadings_true_of_first_marker_nonblank oneMarker
     (element "div" [⟨"", "data-readings", ""⟩] [element "a" [] [textNode "1"]])
     rfl (by decide)⟩

/-! ## The reader: claims -/

/-- C1: in a session seeded with `hasInitialNotifications = true`, when the first Unreads
frame carries no unread item nothing is printed for it, and when the next Unreads frame
carries none either, `printOutput(false)` is printed for it (frames around them that are
undecodable or of another identifier print nothing). -/
theorem first_empty_suppressed_second_printed (pre mid : List Inbound)
    (m1 m2 : IncomingMessage)
    (hpre : ∀ r ∈ pre, isOtherFrame r = true) (hmid : ∀ r ∈ mid, isOtherFrame r = true)
    (h1 : m1.Identifier = UnreadsChannel) (e1 : m1.Message.Unreads.length = 0)
    (h2 : m2.Identifier = UnreadsChannel) (e2 : m2.Message.Unreads.length = 0) :
    (readerLoop true pre).stdout = []
      ∧ (readerLoop true (pre ++ [.message m1])).stdout = []
      ∧ (readerLoop true (pre ++ [.message m1] ++ mid)).stdout = []
      ∧ (readerLoop true (pre ++ [.message m1] ++ mid ++ [.message m2])).stdout
          = [printOutput false] := by
  have hA : readerLoop true pre = startReader true := readerLoop_other _ _ hpre
  have hB : readerLoop true (pre ++ [.message m1])
      = { ignoreInitialEmpty := false, stdout := [], status := .running } := by
    rw [readerLoop_append, hA]
    simp [readerIteration, startReader, h1, e1]
  have hC : readerLoop true (pre ++ [.message m1] ++ mid)
      = { ignoreInitialEmpty := false, stdout := [], status := .running } := by
    rw [readerLoop_append, hB, foldl_other _ _ hmid]
  have hD : readerLoop true (pre ++ [.message m1] ++ mid ++ [.message m2])
      = { ignoreInitialEmpty := false, stdout := [printOutput false], status := .running } := by
    rw [readerLoop_append, hC]
    simp [readerIteration, h2, e2]
  rw [hA, hB, hC, hD]
  simp [startReader]

/-- C1, at a concrete sequence of frames. -/
theorem first_empty_suppressed_second_printed_witness :
    (readerLoop true [.malformed, frame UnreadsChannel 0]).stdout = []
      ∧ (readerLoop true [.malformed, frame UnreadsChannel 0, frame MonitoringChannel 0,
            frame UnreadsChannel 0]).stdout = [printOutput false] :=
  have h := first_empty_suppressed_second_printed [.malformed] [frame MonitoringChannel 0]
    { Identifier := UnreadsChannel, Message := { Action := "", Unreads := [] }, Kind := "message" }
    { Identifier := UnreadsChannel, Message := { Action := "", Unreads := [] }, Kind := "message" }
    (by decide) (by decide) rfl rfl rfl rfl
  ⟨h.2.1, h.2.2.2⟩

/-- C2: in a session seeded with `hasInitialNotifications = true`, when the first Unreads
frame carries at least one unread item, `true` is printed for it and `ignoreInitialEmpty`
becomes false; every later Unreads frame, whatever its count `n`, has the value `n > 0`
printed (so a later empty frame prints `false`), and `ignoreInitialEmpty` stays false. -/
theorem first_nonempty_printed_then_unconditional (pre rest : List Inbound)
    (m1 : IncomingMessage) (hpre : ∀ r ∈ pre, isOtherFrame r = true)
    (h1 : m1.Identifier = UnreadsChannel) (e1 : m1.Message.Unreads.length > 0) :
    (readerLoop true pre).stdout = []
      ∧ (readerLoop true (pre ++ [.message m1])).stdout = [printOutput true]
      ∧ (readerLoop true (pre ++ [.message m1])).ignoreInitialEmpty = false
      ∧ (readerLoop true (pre ++ [.message m1] ++ rest)).stdout
          = printOutput true :: (unreadStates rest).map printOutput
      ∧ (readerLoop true (pre ++ [.message m1] ++ rest)).ignoreInitialEmpty = false := by
  have hA : readerLoop true pre = startReader true := readerLoop_other _ _ hpre
  have hne : ¬ m1.Message.Unreads.length = 0 := by omega
  have hB : readerLoop true (pre ++ [.message m1])
      = { ignoreInitialEmpty := false, stdout := [printOutput true], status := .running } := by
    rw [readerLoop_append, hA]
    simp [readerIteration, startReader, h1, hne, e1]
  have hC := foldl_disarmed rest
    { ignoreInitialEmpty := false, stdout := [printOutput true], status := .running } rfl rfl
  refine ⟨by rw [hA]; rfl, by rw [hB], by rw [hB], ?_, ?_⟩
  · rw [readerLoop_append, hB, hC.1]
    rfl
  · rw [readerLoop_append, hB, hC.2]

/-- C2, at a concrete sequence of frames: counts 2, 0, 3, 0 print true, false, true,
false. -/
theorem first_nonempty_printed_then_unconditional_witness :
    (readerLoop true [frame UnreadsChannel 2, frame UnreadsChannel 0, .malformed,
        frame UnreadsChannel 3, frame UnreadsChannel 0]).stdout
      = [printOutput true, printOutput false, printOutput true, printOutput false] :=
  (first_nonempty_printed_then_unconditional []
    [frame UnreadsChannel 0, .malformed, frame UnreadsChannel 3, frame UnreadsChannel 0]
    { Identifier := UnreadsChannel,
      Message := { Action := "", Unreads := List.replicate 2 ⟨"", "", ""⟩ }, Kind := "message" }
    (by simp) rfl (by decide)).2.2.2.1

/-- C3: in a session seeded with `hasInitialNotifications = false`, for every sequence of
results of `c.ReadMessage`, the lines printed are exactly `printOutput(len(unreads) > 0)`
for each decoded frame of the Unreads channel received before the first read failure, in
arrival order and without deduplication, and `ignoreInitialEmpty` stays false; a frame that
is undecodable or of another identifier leaves the reader (its flag and its output)
unchanged in every state. -/
theorem unseeded_prints_every_unreads_frame (reads : List Inbound) :
    (readerLoop false reads).stdout = (unreadStates reads).map printOutput
      ∧ (readerLoop false reads).ignoreInitialEmpty = false
      ∧ (∀ (rd : Reader) (r : Inbound), isOtherFrame r = true → readerIteration rd r = rd)
      ∧ (∀ a b : Bool, printOutput a = printOutput b → a = b) := by
  have h := foldl_disarmed reads (startReader false) rfl rfl
  refine ⟨?_, h.2, readerIteration_other, ?_⟩
  · rw [readerLoop, h.1]
    rfl
  · intro a b
    cases a <;> cases b <;> simp [printOutput]

/-- C3, at a concrete sequence: repeated values are printed again, other frames print
nothing. -/
theorem unseeded_prints_every_unreads_frame_witness :
    (readerLoop false [frame UnreadsChannel 0, frame UnreadsChannel 0, .malformed,
        frame MonitoringChannel 4, frame UnreadsChannel 1, frame UnreadsChannel 5]).stdout
      = [printOutput false, printOutput false, printOutput true, printOutput true] :=
  (unseeded_prints_every_unreads_frame _).1

/-! ## The supervisor and the session: claims -/

/-- C5: when the probes it performs return (`r` for the readings path and, if `r` is
false, `p` for the pings path), `initialCheck` returns `r || p`, prints exactly that one
value, after the probes, and probes the pings path only when the readings probe returned
false; in `main` everything seen is what `initialCheck` did followed by what the loop
does, so the line is printed before the first call of `runConnection`. -/
theorem initialCheck_prints_once (accountID : String) (checkForUpdates : String → Option Bool)
    (attempts : List Attempt) (r p : Bool) (hid : accountID ≠ "")
    (hr : checkForUpdates "/my/navigation/readings" = some r)
    (hp : r = false → checkForUpdates "/my/navigation/pings" = some p) :
    initialCheck checkForUpdates
        = (some (r || p),
            Obs.checkForUpdates "/my/navigation/readings"
              :: ((if r then [] else [Obs.checkForUpdates "/my/navigation/pings"])
                    ++ [Obs.stdout (printOutput (r || p))]))
      ∧ printed (initialCheck checkForUpdates).2 = [printOutput (r || p)]
      ∧ seeds (initialCheck checkForUpdates).2 = []
      ∧ main accountID checkForUpdates attempts
          = ((mainLoop (r || p) attempts).1,
              (initialCheck checkForUpdates).2 ++ (mainLoop (r || p) attempts).2) := by
  have hinit : initialCheck checkForUpdates
        = (some (r || p),
            Obs.checkForUpdates "/my/navigation/readings"
              :: ((if r then [] else [Obs.checkForUpdates "/my/navigation/pings"])
                    ++ [Obs.stdout (printOutput (r || p))])) := by
    cases r with
    | true => simp [initialCheck, hr]
    | false => simp [initialCheck, hr, hp rfl]
  refine ⟨hinit, ?_, seeds_initialCheck _, ?_⟩
  · rw [hinit]
    cases r <;> simp [printed]
  · unfold main
    rw [hinit]
    simp [hid]

/-- C5, on an account whose readings probe is false and whose pings probe is true. -/
theorem initialCheck_prints_once_witness :
    initialCheck pingsOnly
        = (some true,
            [Obs.checkForUpdates "/my/navigation/readings",
             Obs.checkForUpdates "/my/navigation/pings",
             Obs.stdout (printOutput true)])
      ∧ (main "5551234" pingsOnly [cancelled]).2
        = [Obs.checkForUpdates "/my/navigation/readings",
           Obs.checkForUpdates "/my/navigation/pings",
           Obs.stdout (printOutput true),
           Obs.runConnection true] :=
  have h := initialCheck_prints_once "5551234" pingsOnly [cancelled] false true
    (by decide) rfl (fun _ => rfl)
  ⟨h.1, by rw [h.2.2.2, h.1]; rfl⟩

/-- C6: in every run of `main` in which `initialCheck` returns `v`, the calls of
`runConnection` are seeded `v` for the first and `false` for every later one; a later call
is made exactly after a turn that returned false (a dial or subscribe failure included)
and whose wait was not interrupted, so when every turn fails the seeds are `v` followed by
`false` only. -/
theorem reconnect_seeded_false (accountID : String) (checkForUpdates : String → Option Bool)
    (v : Bool) (seen : List Obs) (attempts : List Attempt) (hid : accountID ≠ "")
    (hinit : initialCheck checkForUpdates = (some v, seen)) :
    seeds (main accountID checkForUpdates attempts).2
        <+: v :: List.replicate attempts.length false
      ∧ ((∀ a ∈ attempts, a.interrupted = false
            ∧ ∀ b, (runConnection a.conn b).1 = .returned false) →
          seeds (main accountID checkForUpdates attempts).2
            = (v :: List.replicate attempts.length false).take attempts.length)
      ∧ (∀ (env : Connection) (b : Bool), env.cookieJar = true →
          (env.dialErr ≠ none ∨ env.subUnreadsErr ≠ none ∨ env.subMonitorErr ≠ none) →
          (runConnection env b).1 = .returned false)
      ∧ (∀ (a : Attempt) (rest : List Attempt) (b : Bool),
          (runConnection a.conn b).1 = .returned false → a.interrupted = false →
          mainLoop b (a :: rest)
            = ((mainLoop false rest).1,
                (Obs.runConnection b :: (runConnection a.conn b).2.reader.stdout.map Obs.stdout)
                  ++ Obs.after 5 :: (mainLoop false rest).2)) := by
  have hmain : seeds (main accountID checkForUpdates attempts).2
      = seeds (mainLoop v attempts).2 := by
    have hs := seeds_initialCheck checkForUpdates
    rw [hinit] at hs
    unfold main
    rw [hinit]
    simp only [hid, if_false, seeds_append]
    simp only [] at hs
    rw [hs, List.nil_append]
  refine ⟨?_, ?_, runConnection_failed, ?_⟩
  · rw [hmain]
    exact seeds_mainLoop_prefix attempts v
  · intro hall
    rw [hmain]
    exact seeds_mainLoop_all_failed attempts hall v
  · intro a rest b hret hint
    simp [mainLoop, hret, hint]

/-- C6, on a run whose snapshot is true and whose first session prints `true` before it
fails: the sessions are seeded true, false, false. -/
theorem reconnect_seeded_false_witness :
    (runConnection lostAfterTrue.conn true).2.reader.stdout = [printOutput true]
      ∧ seeds (main "5551234" pingsOnly [lostAfterTrue, dialFails, subscribeFails]).2
        = [true, false, false] :=
  ⟨by decide,
   (reconnect_seeded_false "5551234" pingsOnly true (initialCheck pingsOnly).2
      [lostAfterTrue, dialFails, subscribeFails] (by decide) rfl).2.1
      (by
        intro a ha
        simp only [List.mem_cons, List.mem_singleton, List.not_mem_nil, or_false] at ha
        rcases ha with rfl | rfl | rfl <;>
          exact ⟨rfl, fun b => by cases b <;> decide⟩)⟩

/-- C7: the loop of `main` stops for good.  A turn whose session returns true, or whose
session fails and whose wait is interrupted, ends `main` with no further call of
`runConnection`, whatever the environment would do next; once `main` has exited, more
environment changes nothing.  A session that returns true has written, last and with the
write mutex held, a normal-closure close frame; and a session blocked in its final
`select` that observes the interrupt writes that frame and returns true. -/
theorem stopped_is_terminal (v : Bool) (a : Attempt) (attempts post : List Attempt)
    (accountID : String) (checkForUpdates : String → Option Bool) (env : Connection) :
    ((runConnection a.conn v).1 = .returned true →
        mainLoop v (a :: post)
          = (.exited,
              Obs.runConnection v :: (runConnection a.conn v).2.reader.stdout.map Obs.stdout))
      ∧ ((runConnection a.conn v).1 = .returned false → a.interrupted = true →
        mainLoop v (a :: post)
          = (.exited,
              Obs.runConnection v :: (runConnection a.conn v).2.reader.stdout.map Obs.stdout))
      ∧ ((mainLoop v attempts).1 = .exited →
        mainLoop v (attempts ++ post) = mainLoop v attempts)
      ∧ ((main accountID checkForUpdates attempts).1 = .exited →
        main accountID checkForUpdates (attempts ++ post)
          = main accountID checkForUpdates attempts)
      ∧ ((runConnection env v).1 = .returned true →
        (runConnection env v).2.wire.getLast?
          = some { frame := .close CloseNormalClosure "", locked := true })
      ∧ ((runConnection env v).1 = .blocked →
        (runConnection { env with schedule := env.schedule ++ [.interrupt] } v).1
            = .returned true
          ∧ (runConnection { env with schedule := env.schedule ++ [.interrupt] } v).2.wire
            = (runConnection env v).2.wire
                ++ [{ frame := .close CloseNormalClosure "", locked := true }]) := by
  refine ⟨?_, ?_, mainLoop_exited_append attempts post v, ?_, ?_, ?_⟩
  · intro h
    simp [mainLoop, h]
  · intro h hi
    simp [mainLoop, h, hi]
  · intro h
    unfold main at h ⊢
    by_cases hid : accountID = ""
    · simp [hid] at h
    · simp only [hid, if_false] at h ⊢
      cases hinit : initialCheck checkForUpdates with
      | mk res seen =>
        cases res with
        | none => simp [hinit] at h
        | some w =>
          simp only [hinit] at h ⊢
          rw [mainLoop_exited_append attempts post w h]
  · intro h
    by_cases hj : env.cookieJar = true
    · cases hd : env.dialErr with
      | some e => simp [runConnection, hj, hd] at h
      | none =>
        cases h1 : env.subUnreadsErr with
        | some e => simp [runConnection, hj, hd, h1] at h
        | none =>
          cases h2 : env.subMonitorErr with
          | some e => simp [runConnection, hj, hd, h1, h2] at h
          | none =>
            rw [runConnection_connected env v hj hd h1 h2] at h ⊢
            apply (started_grows v env.schedule).closed
            simp only [] at h
            cases hres : (exec (startActivities (writeJSON (writeJSON newSession
              (.subscription subUnreads)) (.subscription subMonitor)) v) env.schedule).result with
            | none => simp [hres] at h
            | some b =>
              simp only [hres, Outcome.returned.injEq] at h
              rw [h]
    · have : env.cookieJar = false := by simpa using hj
      simp [runConnection, this] at h
  · intro h
    obtain ⟨cj, de, e1, e2, sch⟩ := env
    cases cj with
    | false => simp [runConnection] at h
    | true =>
      cases de with
      | some e => simp [runConnection] at h
      | none =>
        cases e1 with
        | some e => simp [runConnection] at h
        | none =>
          cases e2 with
          | some e => simp [runConnection] at h
          | none =>
            rw [runConnection_connected _ v rfl rfl rfl rfl] at h
            rw [runConnection_connected _ v rfl rfl rfl rfl,
              runConnection_connected _ v rfl rfl rfl rfl]
            simp only [] at h ⊢
            have hm := (started_grows v sch).mutex
            cases hres : (exec (startActivities (writeJSON (writeJSON newSession
              (.subscription subUnreads)) (.subscription subMonitor)) v) sch).result with
            | some b => simp [hres] at h
            | none =>
              rw [exec_append]
              simp [exec, step, hres, hm, Unlock, Write, Lock]

/-- C7, on two runs: a session ended by the interrupt and a wait ended by the interrupt
both end `main`, with a further turn of the environment left untouched, and the cancelled
session's last write is the close frame. -/
theorem stopped_is_terminal_witness :
    mainLoop true ([cancelled] ++ [dialFails]) = mainLoop true [cancelled]
      ∧ mainLoop true [cancelledInBackoff, dialFails] = (.exited, [Obs.runConnection true])
      ∧ (runConnection cancelled.conn true).2.wire.getLast?
        = some { frame := .close CloseNormalClosure "", locked := true }
      ∧ (runConnection cancelled.conn true).2.wire.map WireEntry.frame
        = [.subscription subUnreads, .subscription subMonitor, .ping pingMsg,
           .close CloseNormalClosure ""] :=
  have h := stopped_is_terminal true cancelledInBackoff [cancelled] [dialFails] "5551234"
    pingsOnly cancelled.conn
  ⟨h.2.2.1 (by decide), h.2.1 (by decide) rfl, h.2.2.2.2.1 (by decide), by decide⟩

/-- C8: in every call of `runConnection`, the first frame written, if any, is the
subscription to `{"channel":"UnreadsChannel"}`, the second, if any, the subscription to
`{"channel":"MonitoringChannel"}`, and every ping frame is written after both; an
established connection on which both subscribe writes succeed has written both; and when
a subscribe write fails the call returns false and no ping frame is ever written. -/
theorem subscribes_precede_heartbeats (env : Connection) (v : Bool) :
    (∀ f, ((runConnection env v).2.wire.map WireEntry.frame)[0]? = some f →
        f = .subscription
          { Command := "subscribe", Identifier := "\x7b\"channel\":\"UnreadsChannel\"\x7d" })
      ∧ (∀ f, ((runConnection env v).2.wire.map WireEntry.frame)[1]? = some f →
        f = .subscription
          { Command := "subscribe", Identifier := "\x7b\"channel\":\"MonitoringChannel\"\x7d" })
      ∧ (∀ i m, ((runConnection env v).2.wire.map WireEntry.frame)[i]? = some (.ping m) →
        2 ≤ i)
      ∧ (env.cookieJar = true → env.dialErr = none → env.subUnreadsErr = none →
          env.subMonitorErr = none →
        ((runConnection env v).2.wire.map WireEntry.frame).take 2
          = [.subscription subUnreads, .subscription subMonitor])
      ∧ (env.cookieJar = true → env.dialErr = none →
          (env.subUnreadsErr ≠ none ∨ env.subMonitorErr ≠ none) →
        (runConnection env v).1 = .returned false
          ∧ ∀ m, Written.ping m ∉ (runConnection env v).2.wire.map WireEntry.frame) := by
  have hU : (.subscription
      { Command := "subscribe", Identifier := "\x7b\"channel\":\"UnreadsChannel\"\x7d" } : Written)
      = .subscription subUnreads := rfl
  have hM : (.subscription
      { Command := "subscribe", Identifier := "\x7b\"channel\":\"MonitoringChannel\"\x7d" } : Written)
      = .subscription subMonitor := rfl
  rw [hU, hM]
  rcases runConnection_wire env v with h | ⟨h, hne⟩ | ⟨extra, h, hp, hx⟩
  · rw [h]
    refine ⟨by simp, by simp, by simp, ?_, ?_⟩
    · intro hj hd h1 h2
      have := runConnection_connected env v hj hd h1 h2
      have hg := (started_grows v env.schedule).grows
      obtain ⟨x, hx, _⟩ := hg
      rw [this] at h
      simp only [hx] at h
      simp [startActivities, writeJSON, Unlock, Write, Lock, newSession] at h
    · intro hj hd hor
      exact ⟨runConnection_failed env v hj (Or.inr hor), by simp⟩
  · rw [h]
    refine ⟨by simp, by simp, ?_, ?_, ?_⟩
    · intro i m hi
      cases i with
      | zero => simp at hi
      | succ n => simp at hi
    · intro _ _ h1 _
      exact absurd h1 hne
    · intro hj hd hor
      exact ⟨runConnection_failed env v hj (Or.inr hor), by simp⟩
  · rw [h]
    refine ⟨by simp, by simp, ?_, by simp, ?_⟩
    · intro i m hi
      match i, hi with
      | 0, hi => simp at hi
      | 1, hi => simp at hi
      | n + 2, _ => omega
    · intro hj hd hor
      refine ⟨runConnection_failed env v hj (Or.inr hor), ?_⟩
      rcases hor with h1 | h2
      · exfalso
        cases h1e : env.subUnreadsErr with
        | none => exact h1 h1e
        | some e =>
          have : (runConnection env v).2.wire.map WireEntry.frame
              = [.subscription subUnreads] := by
            simp [runConnection, hj, hd, h1e, newSession, writeJSON, Unlock, Write, Lock]
          rw [this] at h
          simp at h
      · rw [hx h2]
        simp

/-- C8, on a session with two heartbeats and on one whose second subscribe write fails. -/
theorem subscribes_precede_heartbeats_witness :
    (runConnection (connected [.tick none, .read (frame UnreadsChannel 1), .tick none])
        false).2.wire.map WireEntry.frame
        = [.subscription subUnreads, .subscription subMonitor, .ping pingMsg, .ping pingMsg]
      ∧ (runConnection subscribeFails.conn false).1 = .returned false
      ∧ ∀ m, Written.ping m ∉ (runConnection subscribeFails.conn false).2.wire.map WireEntry.frame :=
  ⟨by decide,
   (subscribes_precede_heartbeats subscribeFails.conn false).2.2.2.2 rfl rfl
     (Or.inr (by decide))⟩

/-- C9 fails on the code: after the read fails and the reader sends the error on
`errChan`, the heartbeat's `select` may receive it.  Each of the three events can happen in
turn; they leave the reader and the heartbeat returned, `errChan` empty and the session
blocked; from there only the interrupt can happen, so whatever follows the call never
returns false. -/
theorem failure_signal_taken_by_heartbeat :
    (∀ b : Bool,
        ((step (started b) (.read (.readError "EOF"))).bind
            (fun s1 => (step s1 .readerSend).bind (fun s2 => step s2 .heartbeatRecv)))
          = some (stolenState b))
      ∧ (∀ b : Bool, (runConnection (connected stolenSchedule) b).1 = .blocked)
      ∧ (∀ (b : Bool) (e : Event) (t : Session), step (stolenState b) e = some t →
          e = .interrupt)
      ∧ (∀ (b : Bool) (evs : List Event),
          (runConnection (connected (stolenSchedule ++ evs)) b).1 ≠ .returned false) := by
  refine ⟨?_, ?_, ?_, ?_⟩
  · intro b
    cases b <;> rfl
  · intro b
    cases b <;> rfl
  · intro b e t h
    exact (step_stolen (stolenState b) t e rfl rfl rfl h).1
  · intro b evs
    rw [runConnection_connected _ b rfl rfl rfl rfl]
    have hs : exec (startActivities (writeJSON (writeJSON newSession
        (.subscription subUnreads)) (.subscription subMonitor)) b) (stolenSchedule ++ evs)
        = exec (stolenState b) evs := by
      rw [exec_append]
      exact congrArg (fun s => exec s evs) (exec_stolenSchedule b)
    have hne := exec_stolen evs (stolenState b) rfl rfl rfl (by simp [stolenState])
    simp only [connected, hs]
    cases hres : (exec (stolenState b) evs).result with
    | none => simp
    | some ex =>
      cases ex with
      | true => simp
      | false => exact absurd hres hne

end BasecampNotifier
